import Mathlib

/-!
Verification development for the unifi-ddns Cloudflare worker
(`src/index.ts`).  The worker receives a dynamic-DNS update request,
decodes HTTP Basic credentials from the `Authorization` header,
parses the desired hostname/IP mapping from query parameters, and
reconciles the provider's DNS records: for each desired record and
each visible zone it lists the matching remote records and updates
the single match in place, preserving the remote `proxied` and
`comment` attributes.

The remote DNS provider is modelled as an oracle (`Provider`): a
token status, a zone list, and a listing function, mirroring the four
logical operations the worker performs.  Network writes are made
observable by returning the ordered trace of issued update calls
alongside the HTTP outcome.  JavaScript string builtins used by the
source (`split`, `indexOf`, `substring`, `||` on nullable strings,
`atob`/`btoa` forgiving base64) are embedded explicitly below.
-/

namespace UnifiDdns

/-! ## JavaScript string primitives -/

/-- JS `String.prototype.split` with a single-character separator:
splits on every occurrence, keeping empty segments. -/
def splitChar (sep : Char) : List Char → List (List Char)
  | [] => [[]]
  | c :: rest =>
    if c = sep then
      [] :: splitChar sep rest
    else
      match splitChar sep rest with
      | [] => [[c]]
      | g :: gs => (c :: g) :: gs

/-- JS `String.prototype.indexOf` for a single character: `none`
models the `-1` result. -/
def jsIndexOf (c : Char) : List Char → Option Nat
  | [] => none
  | a :: rest => if a = c then some 0 else (jsIndexOf c rest).map (· + 1)

/-- JS `a || b` on nullable strings: the empty string is falsy, so it
also falls through to `b`. -/
def jsOr (a b : Option String) : Option String :=
  match a with
  | some s => if s = "" then b else some s
  | none => b

/-! ## Base64 (`atob` / `btoa` platform builtins)

`btoa` maps a binary string (all char codes below 256) to its padded
base64 encoding; `atob` implements the WHATWG forgiving-base64 decode
(strip ASCII whitespace, strip up to two trailing `=` when the length
is a multiple of four, fail on any remaining non-alphabet character
or a leftover length of one). -/

def b64Alphabet : List Char :=
  "ABCDEFGHIJKLMNOPQRSTUVWXYZabcdefghijklmnopqrstuvwxyz0123456789+/".data

def encChar (n : Nat) : Char := b64Alphabet.getD n 'A'

def decChar? (c : Char) : Option Nat := jsIndexOf c b64Alphabet

/-- ASCII whitespace stripped by forgiving-base64 decoding. -/
def isB64Ws (c : Char) : Bool :=
  c = ' ' || c = '\t' || c = '\n' || c = '\x0c' || c = '\r'

/-- Encode a byte list into base64 characters (without padding). -/
def encodeBytes : List Nat → List Char
  | [] => []
  | [x] => [encChar (x / 4), encChar (x % 4 * 16)]
  | [x, y] => [encChar (x / 4), encChar (x % 4 * 16 + y / 16), encChar (y % 16 * 4)]
  | x :: y :: z :: rest =>
    encChar (x / 4) :: encChar (x % 4 * 16 + y / 16) ::
      encChar (y % 16 * 4 + z / 64) :: encChar (z % 64) :: encodeBytes rest

/-- Padding characters appended by `btoa` for a byte count `n`. -/
def padFor (n : Nat) : List Char :=
  if n % 3 = 1 then [ '=', '=' ]
  else if n % 3 = 2 then [ '=' ]
  else []

/-- Decode base64 characters (padding already stripped) to bytes. -/
def decB64 : List Char → Option (List Nat)
  | [] => some []
  | [c0, c1] =>
    match decChar? c0, decChar? c1 with
    | some d0, some d1 => some [d0 * 4 + d1 / 16]
    | _, _ => none
  | [c0, c1, c2] =>
    match decChar? c0, decChar? c1, decChar? c2 with
    | some d0, some d1, some d2 => some [d0 * 4 + d1 / 16, d1 % 16 * 16 + d2 / 4]
    | _, _, _ => none
  | c0 :: c1 :: c2 :: c3 :: rest =>
    match decChar? c0, decChar? c1, decChar? c2, decChar? c3, decB64 rest with
    | some d0, some d1, some d2, some d3, some tail =>
      some ((d0 * 4 + d1 / 16) :: (d1 % 16 * 16 + d2 / 4) :: (d2 % 4 * 64 + d3) :: tail)
    | _, _, _, _, _ => none
  | [_] => none

/-- Remove one trailing `=` if present. -/
def stripOneEq (l : List Char) : List Char :=
  if l.getLast? = some '=' then l.dropLast else l

/-- Remove up to two trailing `=` characters (forgiving-base64 step). -/
def stripPad (l : List Char) : List Char := stripOneEq (stripOneEq l)

/-- Forgiving-base64 preprocessing: strip ASCII whitespace, then strip
the padding when the length is a multiple of four. -/
def b64Preprocess (l : List Char) : List Char :=
  let d0 := l.filter (fun c => !(isB64Ws c))
  if d0.length % 4 = 0 then stripPad d0 else d0

/-- JS `atob`: `none` models the thrown `InvalidCharacterError`. -/
def atob (s : String) : Option String :=
  (decB64 (b64Preprocess s.data)).map (fun bs => String.mk (bs.map Char.ofNat))

/-- Convert a string to bytes; fails when a char code exceeds 255. -/
def toBytes? (l : List Char) : Option (List Nat) :=
  if l.all (fun c => decide (c.toNat < 256)) then some (l.map Char.toNat) else none

/-- JS `btoa`: `none` models the thrown `InvalidCharacterError`. -/
def btoa (s : String) : Option String :=
  (toBytes? s.data).map (fun bs => String.mk (encodeBytes bs ++ padFor bs.length))

/-! ## Data model -/

/-- The inbound HTTP request, reduced to what the worker reads:
headers and URL query parameters (first-match lookup, keys taken as
already normalized). -/
structure Request where
  headers : List (String × String)
  searchParams : List (String × String)

def getHeader (request : Request) (key : String) : Option String :=
  (request.headers.find? (fun kv => kv.1 == key)).map (fun kv => kv.2)

def getParam (request : Request) (key : String) : Option String :=
  (request.searchParams.find? (fun kv => kv.1 == key)).map (fun kv => kv.2)

/-- `HttpError` from the source: a status code plus message. -/
structure HttpErrorE where
  statusCode : Nat
  message : String
deriving DecidableEq

/-- A thrown JS value: either the source's `HttpError` or any other
exception (e.g. the `DOMException` thrown by `atob`). -/
inductive JsError where
  | http : HttpErrorE → JsError
  | other : String → JsError
deriving DecidableEq

/-- Result of a routine that may throw. -/
abbrev JsResult (α : Type) := Except JsError α

deriving instance DecidableEq for Except

/-- Decoded credentials (`ClientOptions` in the source). -/
structure ClientOptions where
  apiEmail : String
  apiToken : String
deriving DecidableEq

/-- Address record types (`AddressableRecord = ARecord | AAAARecord`). -/
inductive RecType where
  | A
  | AAAA
deriving DecidableEq

/-- A desired record built from the request (`AddressableRecord`). -/
structure AddressableRecord where
  content : String
  name : String
  type : RecType
  ttl : Nat
deriving DecidableEq

/-- A zone as returned by the provider's zone listing. -/
structure ZoneE where
  id : String
  name : String
deriving DecidableEq

/-- A remote record as returned by the provider's record listing; the
SDK marks `id`, `proxied` and `comment` optional. -/
structure RemoteRecord where
  id : Option String
  name : String
  type : RecType
  content : String
  proxied : Option Bool
  comment : Option String
deriving DecidableEq

/-- The payload of one `cloudflare.dns.records.update` call. -/
structure UpdateCall where
  recordId : String
  content : String
  zone_id : String
  name : String
  type : RecType
  proxied : Bool
  comment : Option String
deriving DecidableEq

/-- The remote provider's state as visible to this request's
credentials: token verification status, zone listing, and record
listing (by zone id, record name, and record type). -/
structure Provider where
  tokenStatus : String
  zones : List ZoneE
  listRecords : String → String → RecType → List RemoteRecord

/-- An HTTP response returned to the caller. -/
structure HttpResponse where
  status : Nat
  body : String
deriving DecidableEq

/-- The catch block of `fetch`: an `HttpError` keeps its status and
message, any other exception becomes a generic 500. -/
def errToResponse : JsError → HttpResponse
  | JsError.http e => ⟨e.statusCode, e.message⟩
  | JsError.other _ => ⟨500, "Internal Server Error"⟩

/-! ## Credential decoder (`constructClientOptions`) -/

/-- The payload taken from the `Authorization` header:
`authorization.split(' ')` destructured as `[, data]`.  When there is
no second element the JS value is `undefined`, which `atob` coerces to
the string `"undefined"`. -/
def authData (authorization : String) : String :=
  ((splitChar ' ' authorization.data).map String.mk).getD 1 "undefined"

/-- Control characters rejected by the source's regex
`/[\0-\x1F\x7F]/`. -/
def isCtl (c : Char) : Bool := c.toNat ≤ 0x1F || c.toNat = 0x7F

def constructClientOptions (request : Request) : JsResult ClientOptions :=
  match getHeader request "Authorization" with
  | none => Except.error (JsError.http ⟨401, "API token missing."⟩)
  | some authorization =>
    match atob (authData authorization) with
    | none => Except.error (JsError.other "InvalidCharacterError")
    | some decoded =>
      match jsIndexOf ':' decoded.data with
      | none => Except.error (JsError.http ⟨401, "Invalid API key or token."⟩)
      | some index =>
        if decoded.data.any isCtl then
          Except.error (JsError.http ⟨401, "Invalid API key or token."⟩)
        else
          Except.ok
            { apiEmail := String.mk (decoded.data.take index)
              apiToken := String.mk (decoded.data.drop (index + 1)) }

/-! ## Request parser (`constructDNSRecords`) -/

/-- `params.get('ip') || params.get('myip')` from the source. -/
def resolvedIp (request : Request) : Option String :=
  jsOr (getParam request "ip") (getParam request "myip")

/-- The IP value actually used for record construction, after the
`ip=auto` substitution by the `CF-Connecting-IP` header. -/
def ipResolved (request : Request) : Option String :=
  match resolvedIp request with
  | none => none
  | some v => if v = "auto" then getHeader request "CF-Connecting-IP" else some v

def constructDNSRecords (request : Request) : JsResult (List AddressableRecord) :=
  match resolvedIp request with
  | none =>
    Except.error (JsError.http ⟨422,
      "The \"ip\" parameter is required and cannot be empty. Specify ip=auto to use the client IP."⟩)
  | some ipv =>
    match (if ipv = "auto" then getHeader request "CF-Connecting-IP" else some ipv) with
    | none =>
      Except.error (JsError.http ⟨500,
        "Request asked for ip=auto but client IP address cannot be determined."⟩)
    | some ip =>
      match getParam request "hostname" with
      | none =>
        Except.error (JsError.http ⟨422,
          "The \"hostname\" parameter is required and cannot be empty."⟩)
      | some hostnames =>
        Except.ok (((splitChar ',' hostnames.data).map String.mk).map (fun hostname =>
          { content := ip
            name := hostname
            type := if ip.data.contains '.' then RecType.A else RecType.AAAA
            ttl := 1 }))

/-! ## Reconciler (`update`) -/

/-- One iteration of the inner zone loop: list the records matching
the desired record's name and type in the zone, fail on more than one
match, skip on zero matches or a missing id, otherwise build the
update call preserving the remote `proxied` (defaulting to `false`)
and `comment`. -/
def processPair (p : Provider) (newRecord : AddressableRecord) (zone : ZoneE) :
    JsResult (Option UpdateCall) :=
  let records := p.listRecords zone.id newRecord.name newRecord.type
  if 1 < records.length then
    Except.error (JsError.http ⟨400, "More than one matching record found!"⟩)
  else
    match records with
    | [] => Except.ok none
    | currentRecord :: _ =>
      match currentRecord.id with
      | none => Except.ok none
      | some rid =>
        Except.ok (some
          { recordId := rid
            content := newRecord.content
            zone_id := zone.id
            name := newRecord.name
            type := newRecord.type
            proxied := currentRecord.proxied.getD false
            comment := currentRecord.comment })

/-- Run the nested record-by-zone loop over an explicit pair list,
collecting the trace of issued update calls; the first thrown error
aborts the remaining iterations (already-issued calls remain). -/
def runPairs (p : Provider) : List (AddressableRecord × ZoneE) →
    List UpdateCall × JsResult Unit
  | [] => ([], Except.ok ())
  | (r, z) :: rest =>
    match processPair p r z with
    | Except.error e => ([], Except.error e)
    | Except.ok none => runPairs p rest
    | Except.ok (some call) =>
      (call :: (runPairs p rest).1, (runPairs p rest).2)

/-- The `update` routine: verify the token, list zones, then iterate
every desired record over every zone; returns the trace of issued
update calls together with the HTTP outcome. -/
def update (p : Provider) (newRecords : List AddressableRecord) :
    List UpdateCall × JsResult HttpResponse :=
  if p.tokenStatus ≠ "active" then
    ([], Except.error (JsError.http ⟨401, "This API Token is " ++ p.tokenStatus⟩))
  else if p.zones.length = 0 then
    ([], Except.error (JsError.http ⟨400,
      "No zones found! You must supply an API Token scoped to a single zone."⟩))
  else
    ((runPairs p (newRecords.flatMap (fun r => p.zones.map (fun z => (r, z))))).1,
      (runPairs p (newRecords.flatMap (fun r => p.zones.map (fun z => (r, z))))).2.map
        (fun _ => ⟨200, "OK"⟩))

/-- The exported `fetch` handler: credential decoding, record parsing,
then the reconciler, with the catch block translating failures.  The
provider oracle stands for the remote state reachable with the
request's decoded credentials. -/
def fetchHandler (p : Provider) (request : Request) : List UpdateCall × HttpResponse :=
  match constructClientOptions request with
  | Except.error e => ([], errToResponse e)
  | Except.ok _ =>
    match constructDNSRecords request with
    | Except.error e => ([], errToResponse e)
    | Except.ok records =>
      match update p records with
      | (calls, Except.ok resp) => (calls, resp)
      | (calls, Except.error e) => (calls, errToResponse e)

/-- Boolean success test on a `JsResult`. -/
def isOkE {α : Type} : JsResult α → Bool
  | Except.ok _ => true
  | Except.error _ => false

/-! ## Concrete example data (for evaluated instances) -/

def exZone : ZoneE := ⟨"z1", "example.com"⟩

def exRemote : RemoteRecord :=
  ⟨some "rid9", "home.example.com", RecType.A, "1.1.1.1", some true, some "keep"⟩

def exProvider1 : Provider := ⟨"active", [exZone], fun _ _ _ => [exRemote]⟩

def exDesired1 : AddressableRecord := ⟨"203.0.113.2", "home.example.com", RecType.A, 1⟩

def exCall1 : UpdateCall :=
  ⟨"rid9", "203.0.113.2", "z1", "home.example.com", RecType.A, true, some "keep"⟩

/-- A provider whose listing returns a record whose `name` differs
from the queried one (the worker never checks this). -/
def c2Remote : RemoteRecord :=
  ⟨some "rid1", "stale.example.com", RecType.A, "9.9.9.9", some true, some "note"⟩

def c2Provider : Provider := ⟨"active", [exZone], fun _ _ _ => [c2Remote]⟩

def c2Desired : AddressableRecord := ⟨"203.0.113.7", "home.example.com", RecType.A, 1⟩

/-- A provider with one well-matched record and one duplicated pair. -/
def c3Provider : Provider := ⟨"active", [exZone], fun _ n _ =>
  if n = "good.example.com" then
    [⟨some "rid1", "good.example.com", RecType.A, "1.2.3.4", none, none⟩]
  else
    [⟨some "r2", "dup.example.com", RecType.A, "0.0.0.0", none, none⟩,
     ⟨some "r3", "dup.example.com", RecType.A, "0.0.0.0", none, none⟩]⟩

def c3RecA : AddressableRecord := ⟨"203.0.113.9", "good.example.com", RecType.A, 1⟩

def c3RecB : AddressableRecord := ⟨"203.0.113.9", "dup.example.com", RecType.A, 1⟩

def c3CallA : UpdateCall :=
  ⟨"rid1", "203.0.113.9", "z1", "good.example.com", RecType.A, false, none⟩

/-- A provider with no matching records at all. -/
def c4Provider : Provider := ⟨"active", [exZone], fun _ _ _ => []⟩

def c4Rec : AddressableRecord := ⟨"203.0.113.9", "h.example.com", RecType.A, 1⟩

/-- A provider whose single match carries no `id`. -/
def c10Remote : RemoteRecord :=
  ⟨none, "h.example.com", RecType.A, "1.2.3.4", some false, none⟩

def c10Provider : Provider := ⟨"active", [exZone], fun _ _ _ => [c10Remote]⟩

def c10Rec : AddressableRecord := ⟨"203.0.113.9", "h.example.com", RecType.A, 1⟩

/-- A request whose `Authorization` payload is not decodable base64. -/
def c6Req : Request :=
  ⟨[("Authorization", "Basic !!!!")], [("ip", "203.0.113.5"), ("hostname", "h")]⟩

/-- A request with a present-but-empty `ip` parameter and a `myip`. -/
def c8Req : Request :=
  ⟨[], [("ip", ""), ("myip", "203.0.113.5"), ("hostname", "h.example.com")]⟩

def c9ReqNoHeader : Request := ⟨[], [("ip", "auto"), ("hostname", "home.example.com")]⟩

def c9ReqHeader : Request :=
  ⟨[("CF-Connecting-IP", "203.0.113.5")], [("ip", "auto"), ("hostname", "home.example.com")]⟩

def c7Req : Request :=
  ⟨[], [("ip", "203.0.113.5"), ("hostname", "a.example.com,b.example.com")]⟩

/-! ## Helper lemmas: JS string primitives -/

theorem take_length_append {α : Type} (l₁ l₂ : List α) :
    (l₁ ++ l₂).take l₁.length = l₁ := by
  induction l₁ with
  | nil => rfl
  | cons a t ih => simp [ih]

theorem drop_length_cons_append {α : Type} (l₁ : List α) (a : α) (l₂ : List α) :
    (l₁ ++ a :: l₂).drop (l₁.length + 1) = l₂ := by
  induction l₁ with
  | nil => rfl
  | cons b t ih => simp [ih]

theorem data_append (s t : String) : (s ++ t).data = s.data ++ t.data := by
  cases s; cases t; rfl

theorem jsIndexOf_first (c : Char) (l₁ l₂ : List Char) (h : ∀ a ∈ l₁, a ≠ c) :
    jsIndexOf c (l₁ ++ c :: l₂) = some l₁.length := by
  induction l₁ with
  | nil => simp [jsIndexOf]
  | cons a t ih =>
    have ha : a ≠ c := h a (by simp)
    have ht := ih (fun x hx => h x (by simp [hx]))
    simp [jsIndexOf, ha, ht]

theorem any_eq_false_of {p : Char → Bool} (l : List Char)
    (h : ∀ c ∈ l, p c = false) : l.any p = false := by
  induction l with
  | nil => rfl
  | cons a t ih => simp_all

theorem filter_eq_self_of {p : Char → Bool} (l : List Char)
    (h : ∀ c ∈ l, p c = true) : l.filter p = l := by
  induction l with
  | nil => rfl
  | cons a t ih => simp_all

theorem splitChar_ne_nil (sep : Char) (l : List Char) : splitChar sep l ≠ [] := by
  induction l with
  | nil => simp [splitChar]
  | cons a t ih =>
    by_cases ha : a = sep
    · simp [splitChar, ha]
    · cases hs : splitChar sep t with
      | nil => exact absurd hs ih
      | cons g gs => simp [splitChar, ha, hs]

theorem splitChar_not_mem (sep : Char) (l : List Char) (h : ∀ a ∈ l, a ≠ sep) :
    splitChar sep l = [l] := by
  induction l with
  | nil => rfl
  | cons a t ih =>
    have ha : a ≠ sep := h a (by simp)
    have ht := ih (fun x hx => h x (by simp [hx]))
    simp [splitChar, ha, ht]

theorem splitChar_pre (sep : Char) (pre suf : List Char)
    (hpre : ∀ a ∈ pre, a ≠ sep) (hsuf : ∀ a ∈ suf, a ≠ sep) :
    splitChar sep (pre ++ sep :: suf) = [pre, suf] := by
  induction pre with
  | nil => simp [splitChar, splitChar_not_mem sep suf hsuf]
  | cons a t ih =>
    have ha : a ≠ sep := hpre a (by simp)
    have ht := ih (fun x hx => hpre x (by simp [hx]))
    simp [splitChar, ha, ht]

/-! ## Helper lemmas: base64 -/

theorem decChar_encChar : ∀ k, k < 64 → decChar? (encChar k) = some k := by decide

theorem encChar_not_ws : ∀ k, k < 64 → isB64Ws (encChar k) = false := by decide

theorem encChar_ne_pad : ∀ k, k < 64 → encChar k ≠ '=' := by decide

theorem padFor_mem (n : Nat) : ∀ c ∈ padFor n, c = '=' := by
  unfold padFor
  split
  · intro c hc; simp_all
  · split
    · intro c hc; simp_all
    · intro c hc; simp_all

theorem padFor_add3 (n : Nat) : padFor (n + 3) = padFor n := by
  simp [padFor, Nat.add_mod_right]

theorem encodeBytes_good (bs : List Nat) (h : ∀ b ∈ bs, b < 256) :
    ∀ c ∈ encodeBytes bs, isB64Ws c = false ∧ c ≠ '=' := by
  induction bs using encodeBytes.induct with
  | case1 => intro c hc; simp [encodeBytes] at hc
  | case2 x =>
    have hx := h x (by simp)
    intro c hc
    simp only [encodeBytes, List.mem_cons, List.not_mem_nil, or_false] at hc
    rcases hc with rfl | rfl <;>
      exact ⟨encChar_not_ws _ (by omega), encChar_ne_pad _ (by omega)⟩
  | case3 x y =>
    have hx := h x (by simp)
    have hy := h y (by simp)
    intro c hc
    simp only [encodeBytes, List.mem_cons, List.not_mem_nil, or_false] at hc
    rcases hc with rfl | rfl | rfl <;>
      exact ⟨encChar_not_ws _ (by omega), encChar_ne_pad _ (by omega)⟩
  | case4 x y z rest ih =>
    have hx := h x (by simp)
    have hy := h y (by simp)
    have hz := h z (by simp)
    intro c hc
    simp only [encodeBytes, List.mem_cons] at hc
    rcases hc with rfl | rfl | rfl | rfl | hc
    · exact ⟨encChar_not_ws _ (by omega), encChar_ne_pad _ (by omega)⟩
    · exact ⟨encChar_not_ws _ (by omega), encChar_ne_pad _ (by omega)⟩
    · exact ⟨encChar_not_ws _ (by omega), encChar_ne_pad _ (by omega)⟩
    · exact ⟨encChar_not_ws _ (by omega), encChar_ne_pad _ (by omega)⟩
    · exact ih (fun b hb => h b (by simp [hb])) c hc

theorem encodeBytes_pad_length (bs : List Nat) :
    (encodeBytes bs ++ padFor bs.length).length % 4 = 0 := by
  induction bs using encodeBytes.induct with
  | case1 => rfl
  | case2 x => simp [encodeBytes, padFor]
  | case3 x y => simp [encodeBytes, padFor]
  | case4 x y z rest ih =>
    have hlen : (x :: y :: z :: rest).length = rest.length + 3 := by
      simp only [List.length_cons]
    rw [hlen, padFor_add3]
    simp only [encodeBytes, List.cons_append, List.length_cons, List.length_append]
    simp only [List.length_append] at ih
    omega

theorem decB64_encodeBytes (bs : List Nat) (h : ∀ b ∈ bs, b < 256) :
    decB64 (encodeBytes bs) = some bs := by
  induction bs using encodeBytes.induct with
  | case1 => rfl
  | case2 x =>
    have hx := h x (by simp)
    simp only [encodeBytes, decB64,
      decChar_encChar _ (show x / 4 < 64 by omega),
      decChar_encChar _ (show x % 4 * 16 < 64 by omega)]
    have hv : x / 4 * 4 + x % 4 * 16 / 16 = x := by omega
    rw [hv]
  | case3 x y =>
    have hx := h x (by simp)
    have hy := h y (by simp)
    simp only [encodeBytes, decB64,
      decChar_encChar _ (show x / 4 < 64 by omega),
      decChar_encChar _ (show x % 4 * 16 + y / 16 < 64 by omega),
      decChar_encChar _ (show y % 16 * 4 < 64 by omega)]
    have hv1 : x / 4 * 4 + (x % 4 * 16 + y / 16) / 16 = x := by omega
    have hv2 : (x % 4 * 16 + y / 16) % 16 * 16 + y % 16 * 4 / 4 = y := by omega
    rw [hv1, hv2]
  | case4 x y z rest ih =>
    have hx := h x (by simp)
    have hy := h y (by simp)
    have hz := h z (by simp)
    have ht := ih (fun b hb => h b (by simp [hb]))
    simp only [encodeBytes, decB64,
      decChar_encChar _ (show x / 4 < 64 by omega),
      decChar_encChar _ (show x % 4 * 16 + y / 16 < 64 by omega),
      decChar_encChar _ (show y % 16 * 4 + z / 64 < 64 by omega),
      decChar_encChar _ (show z % 64 < 64 by omega), ht]
    have hv1 : x / 4 * 4 + (x % 4 * 16 + y / 16) / 16 = x := by omega
    have hv2 : (x % 4 * 16 + y / 16) % 16 * 16 + (y % 16 * 4 + z / 64) / 4 = y := by
      omega
    have hv3 : (y % 16 * 4 + z / 64) % 4 * 64 + z % 64 = z := by omega
    rw [hv1, hv2, hv3]

theorem encodeBytes_last (bs : List Nat) (h : ∀ b ∈ bs, b < 256) :
    bs = [] ∨ ∃ l k, k < 64 ∧ encodeBytes bs = l ++ [encChar k] := by
  induction bs using encodeBytes.induct with
  | case1 => exact Or.inl rfl
  | case2 x =>
    exact Or.inr ⟨[encChar (x / 4)], x % 4 * 16, by omega, rfl⟩
  | case3 x y =>
    exact Or.inr ⟨[encChar (x / 4), encChar (x % 4 * 16 + y / 16)], y % 16 * 4,
      by omega, rfl⟩
  | case4 x y z rest ih =>
    have hz := h z (by simp)
    rcases ih (fun b hb => h b (by simp [hb])) with hnil | ⟨l, k, hk, hl⟩
    · subst hnil
      exact Or.inr ⟨[encChar (x / 4), encChar (x % 4 * 16 + y / 16),
        encChar (y % 16 * 4 + z / 64)], z % 64, by omega, rfl⟩
    · exact Or.inr ⟨encChar (x / 4) :: encChar (x % 4 * 16 + y / 16) ::
        encChar (y % 16 * 4 + z / 64) :: encChar (z % 64) :: l, k, hk,
        by simp [encodeBytes, hl]⟩

theorem stripOneEq_concat (l : List Char) (a : Char) :
    stripOneEq (l ++ [a]) = if a = '=' then l else l ++ [a] := by
  by_cases ha : a = '=' <;>
    simp [stripOneEq, ha, List.getLast?_concat, List.dropLast_concat]

theorem stripPad_concat_ne (l : List Char) (a : Char) (ha : a ≠ '=') :
    stripPad (l ++ [a]) = l ++ [a] := by
  simp [stripPad, stripOneEq_concat, ha]

theorem stripPad_concat2 (l : List Char) : stripPad (l ++ [ '=', '=' ]) = l := by
  have h2 : l ++ [ '=', '=' ] = (l ++ [ '=' ]) ++ [ '=' ] := by simp
  rw [stripPad, h2, stripOneEq_concat, if_pos rfl, stripOneEq_concat, if_pos rfl]

theorem stripPad_concat_mid (l : List Char) (a : Char) (ha : a ≠ '=') :
    stripPad ((l ++ [a]) ++ [ '=' ]) = l ++ [a] := by
  rw [stripPad, stripOneEq_concat, if_pos rfl, stripOneEq_concat, if_neg ha]

theorem stripPad_encode (bs : List Nat) (h : ∀ b ∈ bs, b < 256) :
    stripPad (encodeBytes bs ++ padFor bs.length) = encodeBytes bs := by
  rcases encodeBytes_last bs h with hnil | ⟨l, k, hk, hl⟩
  · subst hnil; rfl
  · have hne := encChar_ne_pad k hk
    have h3 : bs.length % 3 = 0 ∨ bs.length % 3 = 1 ∨ bs.length % 3 = 2 := by omega
    rcases h3 with h3 | h3 | h3
    · rw [show padFor bs.length = [] from by simp [padFor, h3], List.append_nil, hl]
      exact stripPad_concat_ne l _ hne
    · rw [show padFor bs.length = [ '=', '=' ] from by simp [padFor, h3]]
      exact stripPad_concat2 _
    · rw [show padFor bs.length = [ '=' ] from by simp [padFor, h3], hl]
      exact stripPad_concat_mid l _ hne

theorem atob_btoa (s enc : String) (h : btoa s = some enc) : atob enc = some s := by
  have hb : ∃ bs, toBytes? s.data = some bs ∧
      enc = String.mk (encodeBytes bs ++ padFor bs.length) := by
    unfold btoa at h
    cases htb : toBytes? s.data with
    | none => rw [htb] at h; simp at h
    | some bs => rw [htb] at h; simp at h; exact ⟨bs, rfl, h.symm⟩
  obtain ⟨bs, htb, henc⟩ := hb
  have hbs : bs = s.data.map Char.toNat ∧ ∀ c ∈ s.data, c.toNat < 256 := by
    unfold toBytes? at htb
    split at htb
    · next hall =>
      constructor
      · exact (Option.some.injEq _ _ ▸ htb).symm
      · intro c hc
        simpa using List.all_eq_true.mp hall c hc
    · exact absurd htb (by simp)
  have hbound : ∀ b ∈ bs, b < 256 := by
    intro b hb
    rw [hbs.1] at hb
    obtain ⟨c, hc, rfl⟩ := List.mem_map.mp hb
    exact hbs.2 c hc
  subst henc
  unfold atob b64Preprocess
  have hdata : (String.mk (encodeBytes bs ++ padFor bs.length)).data
      = encodeBytes bs ++ padFor bs.length := rfl
  rw [hdata]
  have hfil : (encodeBytes bs ++ padFor bs.length).filter (fun c => !(isB64Ws c))
      = encodeBytes bs ++ padFor bs.length := by
    apply filter_eq_self_of
    intro c hc
    rcases List.mem_append.mp hc with hc | hc
    · simp [(encodeBytes_good bs hbound c hc).1]
    · rw [padFor_mem _ c hc]; decide
  simp only [hfil]
  rw [if_pos (encodeBytes_pad_length bs)]
  rw [stripPad_encode bs hbound]
  rw [decB64_encodeBytes bs hbound]
  simp only [Option.map_some']
  rw [hbs.1]
  simp only [List.map_map, Function.comp_def, Char.ofNat_toNat, List.map_id']

/-- Unpack a successful `btoa`: the encoding contains no space. -/
theorem btoa_no_space (s enc : String) (h : btoa s = some enc) :
    ∀ c ∈ enc.data, c ≠ ' ' := by
  unfold btoa at h
  cases htb : toBytes? s.data with
  | none => rw [htb] at h; simp at h
  | some bs =>
    rw [htb] at h
    simp at h
    have hbound : ∀ b ∈ bs, b < 256 := by
      unfold toBytes? at htb
      split at htb
      · next hall =>
        have hb : bs = s.data.map Char.toNat := (Option.some.injEq _ _ ▸ htb).symm
        intro b hbm
        rw [hb] at hbm
        obtain ⟨c, hc, rfl⟩ := List.mem_map.mp hbm
        simpa using List.all_eq_true.mp hall c hc
      · exact absurd htb (by simp)
    rw [← h]
    intro c hc
    rcases List.mem_append.mp hc with hc | hc
    · have hg := (encodeBytes_good bs hbound c hc).1
      intro hsp
      subst hsp
      simp [isB64Ws] at hg
    · rw [padFor_mem _ c hc]
      decide

/-! ## Helper lemmas: reconciler -/

theorem processPair_conflict (p : Provider) (r : AddressableRecord) (z : ZoneE)
    (h : 1 < (p.listRecords z.id r.name r.type).length) :
    processPair p r z =
      Except.error (JsError.http ⟨400, "More than one matching record found!"⟩) := by
  simp [processPair, h]

/-- The single-match case fully characterized. -/
theorem processPair_single (p : Provider) (r : AddressableRecord) (z : ZoneE)
    (rec : RemoteRecord) (rid : String)
    (h1 : p.listRecords z.id r.name r.type = [rec]) (h2 : rec.id = some rid) :
    processPair p r z = Except.ok (some
      ⟨rid, r.content, z.id, r.name, r.type, rec.proxied.getD false, rec.comment⟩) := by
  simp [processPair, h1, h2]

theorem runPairs_append_ok (p : Provider) (l₁ l₂ : List (AddressableRecord × ZoneE))
    (h : ∀ x ∈ l₁, isOkE (processPair p x.1 x.2) = true) :
    runPairs p (l₁ ++ l₂) =
      ((runPairs p l₁).1 ++ (runPairs p l₂).1, (runPairs p l₂).2) := by
  induction l₁ with
  | nil => simp [runPairs]
  | cons a t ih =>
    obtain ⟨r, z⟩ := a
    have ha := h (r, z) (by simp)
    have ht := ih (fun x hx => h x (by simp [hx]))
    cases hp : processPair p r z with
    | error e => rw [hp] at ha; simp [isOkE] at ha
    | ok o =>
      cases o with
      | none => simp [runPairs, hp, ht]
      | some call => simp [runPairs, hp, ht]

theorem runPairs_all_ok (p : Provider) (l : List (AddressableRecord × ZoneE))
    (h : ∀ x ∈ l, isOkE (processPair p x.1 x.2) = true) :
    (runPairs p l).2 = Except.ok () := by
  induction l with
  | nil => rfl
  | cons a t ih =>
    obtain ⟨r, z⟩ := a
    have ha := h (r, z) (by simp)
    have ht := ih (fun x hx => h x (by simp [hx]))
    cases hp : processPair p r z with
    | error e => rw [hp] at ha; simp [isOkE] at ha
    | ok o =>
      cases o with
      | none => simp [runPairs, hp, ht]
      | some call => simp [runPairs, hp, ht]

/-- `update` past the token and zone guards. -/
theorem update_active (p : Provider) (newRecords : List AddressableRecord)
    (htok : p.tokenStatus = "active") (hz : p.zones ≠ []) :
    update p newRecords =
      ((runPairs p (newRecords.flatMap (fun r => p.zones.map (fun z => (r, z))))).1,
        (runPairs p (newRecords.flatMap (fun r => p.zones.map (fun z => (r, z))))).2.map
          (fun _ => ⟨200, "OK"⟩)) := by
  have h1 : ¬ (p.tokenStatus ≠ "active") := by simp [htok]
  have h2 : ¬ (p.zones.length = 0) := by simp [List.length_eq_zero, hz]
  unfold update
  rw [if_neg h1, if_neg h2]

/-! ## Claims -/

/-- C1: for every desired record and zone where the reconciler finds
exactly one matching remote record (with an id), the update call it
issues sets `content` to the desired IP while passing the remote
record's existing `proxied` flag (substituting `false` when the
provider omitted it) and the remote record's existing `comment`
unchanged; the call is issued into the trace. -/
theorem C1_update_preserves_proxied_comment (p : Provider) (r : AddressableRecord)
    (z : ZoneE) (rec : RemoteRecord) (rid : String)
    (rest : List (AddressableRecord × ZoneE))
    (h1 : p.listRecords z.id r.name r.type = [rec]) (h2 : rec.id = some rid) :
    processPair p r z = Except.ok (some
      ⟨rid, r.content, z.id, r.name, r.type, rec.proxied.getD false, rec.comment⟩)
    ∧ runPairs p ((r, z) :: rest) =
      (⟨rid, r.content, z.id, r.name, r.type, rec.proxied.getD false, rec.comment⟩
        :: (runPairs p rest).1, (runPairs p rest).2) := by
  have hp := processPair_single p r z rec rid h1 h2
  exact ⟨hp, by simp [runPairs, hp]⟩

/-- C1 witness: a concrete single-match update preserving
`proxied := true` and `comment := "keep"`. -/
theorem C1_witness :
    processPair exProvider1 exDesired1 exZone = Except.ok (some exCall1)
    ∧ runPairs exProvider1 [(exDesired1, exZone)] =
      (exCall1 :: (runPairs exProvider1 []).1, (runPairs exProvider1 []).2) := by
  have h := C1_update_preserves_proxied_comment exProvider1 exDesired1 exZone
    exRemote "rid9" [] rfl rfl
  exact h

/-- C2 counterexample: the provider's listing returns a remote record
named `stale.example.com`, yet the issued update call carries the
request-derived name `home.example.com` — the `name` sent is not the
remote match's. -/
theorem C2_counterexample :
    (update c2Provider [c2Desired]).1 =
      [⟨"rid1", "203.0.113.7", "z1", "home.example.com", RecType.A, true, some "note"⟩]
    ∧ (c2Provider.listRecords "z1" "home.example.com" RecType.A).map RemoteRecord.name
      = ["stale.example.com"]
    ∧ ("home.example.com" : String) ≠ "stale.example.com" := by decide

/-- C2 (amended): the `name`, `type` and `zone` fields of every issued
update call are taken from the request-derived desired record and the
iterated zone; they coincide with the remote match's fields exactly
when the provider's listing returned a record with the queried name
and type. -/
theorem C2_amended_fields_from_desired (p : Provider) (r : AddressableRecord)
    (z : ZoneE) (rec : RemoteRecord) (rid : String)
    (h1 : p.listRecords z.id r.name r.type = [rec]) (h2 : rec.id = some rid) :
    ∀ call, processPair p r z = Except.ok (some call) →
      call.name = r.name ∧ call.type = r.type ∧ call.zone_id = z.id
      ∧ (rec.name = r.name → call.name = rec.name)
      ∧ (rec.type = r.type → call.type = rec.type) := by
  intro call hcall
  rw [processPair_single p r z rec rid h1 h2] at hcall
  have hc : call =
      ⟨rid, r.content, z.id, r.name, r.type, rec.proxied.getD false, rec.comment⟩ := by
    simpa using hcall.symm
  subst hc
  refine ⟨rfl, rfl, rfl, fun h => h.symm, fun h => h.symm⟩

/-- C2 witness: the amended field characterization evaluated on the
concrete mismatched provider. -/
theorem C2_witness :
    processPair c2Provider c2Desired exZone = Except.ok (some
      ⟨"rid1", "203.0.113.7", "z1", "home.example.com", RecType.A, true, some "note"⟩)
    ∧ (⟨"rid1", "203.0.113.7", "z1", "home.example.com", RecType.A, true,
        some "note"⟩ : UpdateCall).name = c2Desired.name := by
  have hp : processPair c2Provider c2Desired exZone = Except.ok (some
      ⟨"rid1", "203.0.113.7", "z1", "home.example.com", RecType.A, true,
        some "note"⟩) := by decide
  have h := C2_amended_fields_from_desired c2Provider c2Desired exZone c2Remote
    "rid1" rfl rfl _ hp
  exact ⟨hp, h.1⟩

/-- C3: if the provider returns more than one record matching a
(name, type) pair in some zone — the first problematic pair of the
nested iteration — the entire request fails with Conflict (400), the
remaining pairs are not processed, and the update calls already
issued for the earlier pairs remain in the trace (no rollback). -/
theorem C3_conflict_aborts (p : Provider) (newRecords : List AddressableRecord)
    (pre post : List (AddressableRecord × ZoneE)) (r : AddressableRecord) (z : ZoneE)
    (htok : p.tokenStatus = "active") (hz : p.zones ≠ [])
    (hdecomp : newRecords.flatMap (fun rec => p.zones.map (fun zn => (rec, zn)))
      = pre ++ (r, z) :: post)
    (hpre : ∀ x ∈ pre, isOkE (processPair p x.1 x.2) = true)
    (hconf : 1 < (p.listRecords z.id r.name r.type).length) :
    update p newRecords = ((runPairs p pre).1,
      Except.error (JsError.http ⟨400, "More than one matching record found!"⟩)) := by
  rw [update_active p newRecords htok hz, hdecomp, runPairs_append_ok p pre _ hpre]
  rw [show runPairs p ((r, z) :: post) = ([],
      Except.error (JsError.http ⟨400, "More than one matching record found!"⟩)) from
    by simp [runPairs, processPair_conflict p r z hconf]]
  simp [Except.map]

/-- C3 witness: the first pair is updated, the second pair's duplicate
match aborts the batch with 400 while keeping the first call. -/
theorem C3_witness :
    update c3Provider [c3RecA, c3RecB] = ([c3CallA],
      Except.error (JsError.http ⟨400, "More than one matching record found!"⟩)) := by
  have h := C3_conflict_aborts c3Provider [c3RecA, c3RecB] [(c3RecA, exZone)] []
    c3RecB exZone rfl (by decide) (by decide) (by decide) (by decide)
  rw [h]
  decide

/-- C4: for every (desired record, zone) pair with zero provider
matches, the reconciler issues no update call for that pair and
continues; when every pair of the batch succeeds, the request
completes with HTTP 200 and body `OK`. -/
theorem C4_zero_matches_skip (p : Provider) (newRecords : List AddressableRecord)
    (r₀ : AddressableRecord) (z₀ : ZoneE) (rest : List (AddressableRecord × ZoneE))
    (htok : p.tokenStatus = "active") (hz : p.zones ≠ [])
    (h0 : p.listRecords z₀.id r₀.name r₀.type = [])
    (hall : ∀ x ∈ newRecords.flatMap (fun rec => p.zones.map (fun zn => (rec, zn))),
      isOkE (processPair p x.1 x.2) = true) :
    processPair p r₀ z₀ = Except.ok none
    ∧ runPairs p ((r₀, z₀) :: rest) = runPairs p rest
    ∧ (update p newRecords).2 = Except.ok ⟨200, "OK"⟩ := by
  have hp : processPair p r₀ z₀ = Except.ok none := by simp [processPair, h0]
  refine ⟨hp, by simp [runPairs, hp], ?_⟩
  rw [update_active p newRecords htok hz]
  have h2 := runPairs_all_ok p _ hall
  simp [h2, Except.map]

/-- C4 witness: a provider with no matching records yields an empty
trace step and an overall 200 `OK`. -/
theorem C4_witness :
    processPair c4Provider c4Rec exZone = Except.ok none
    ∧ runPairs c4Provider [(c4Rec, exZone)] = runPairs c4Provider []
    ∧ (update c4Provider [c4Rec]).2 = Except.ok ⟨200, "OK"⟩ :=
  C4_zero_matches_skip c4Provider [c4Rec] c4Rec exZone [] rfl (by decide) rfl
    (by decide)

/-- C10: when the provider returns exactly one matching record whose
`id` is missing, the reconciler skips the pair exactly as in the
zero-match case — no update call, no error — and the request can
still complete with HTTP 200. -/
theorem C10_missing_id_skips (p : Provider) (newRecords : List AddressableRecord)
    (r : AddressableRecord) (z : ZoneE) (rec : RemoteRecord)
    (rest : List (AddressableRecord × ZoneE))
    (h1 : p.listRecords z.id r.name r.type = [rec]) (h2 : rec.id = none) :
    processPair p r z = Except.ok none
    ∧ runPairs p ((r, z) :: rest) = runPairs p rest
    ∧ (p.tokenStatus = "active" → p.zones ≠ [] →
        (∀ x ∈ newRecords.flatMap (fun a => p.zones.map (fun zn => (a, zn))),
          isOkE (processPair p x.1 x.2) = true) →
        (update p newRecords).2 = Except.ok ⟨200, "OK"⟩) := by
  have hp : processPair p r z = Except.ok none := by simp [processPair, h1, h2]
  refine ⟨hp, by simp [runPairs, hp], ?_⟩
  intro htok hz hall
  rw [update_active p newRecords htok hz]
  have hok := runPairs_all_ok p _ hall
  simp [hok, Except.map]

/-- C10 witness: a single id-less match is skipped and the request
still returns 200 `OK`. -/
theorem C10_witness :
    processPair c10Provider c10Rec exZone = Except.ok none
    ∧ runPairs c10Provider [(c10Rec, exZone)] = runPairs c10Provider []
    ∧ (update c10Provider [c10Rec]).2 = Except.ok ⟨200, "OK"⟩ := by
  have h := C10_missing_id_skips c10Provider [c10Rec] c10Rec exZone c10Remote []
    rfl rfl
  exact ⟨h.1, h.2.1, h.2.2 rfl (by decide) (by decide)⟩

/-- C7: for every request whose IP value resolves (after the `auto`
substitution) and which carries a `hostname` parameter, the parser
splits the hostname value on commas and produces one desired record
per hostname, in order, with no trimming and no deduplication, each
with `content` the resolved IP, `name` the hostname, `type` `A` when
the IP string contains a dot and `AAAA` otherwise, and `ttl` 1. -/
theorem C7_records_from_hostnames (req : Request) (s hs : String)
    (hip : ipResolved req = some s) (hhost : getParam req "hostname" = some hs) :
    constructDNSRecords req = Except.ok
      (((splitChar ',' hs.data).map String.mk).map (fun hostname =>
        ⟨s, hostname, if s.data.contains '.' then RecType.A else RecType.AAAA, 1⟩)) := by
  unfold ipResolved at hip
  unfold constructDNSRecords
  cases hres : resolvedIp req with
  | none => rw [hres] at hip; simp at hip
  | some v =>
    rw [hres] at hip
    have hip' : (if v = "auto" then getHeader req "CF-Connecting-IP" else some v)
        = some s := hip
    by_cases hv : v = "auto"
    · rw [if_pos hv] at hip'
      simp [hv, hip', hhost]
    · rw [if_neg hv] at hip'
      obtain rfl : v = s := by simpa using hip'
      simp [if_neg hv, hhost]

/-- C7 witness: two comma-separated hostnames produce two `A` records
in order. -/
theorem C7_witness :
    constructDNSRecords c7Req = Except.ok
      (((splitChar ',' "a.example.com,b.example.com".data).map String.mk).map
        (fun hostname => ⟨"203.0.113.5", hostname,
          if "203.0.113.5".data.contains '.' then RecType.A else RecType.AAAA, 1⟩)) :=
  C7_records_from_hostnames c7Req "203.0.113.5" "a.example.com,b.example.com"
    (by decide) (by decide)

/-- C8 counterexample: with `ip` present but empty and `myip` set, the
parser still falls back to `myip` — refuting that the fallback
happens exactly when `ip` is absent. -/
theorem C8_counterexample :
    getParam c8Req "ip" = some ""
    ∧ constructDNSRecords c8Req = Except.ok
      [⟨"203.0.113.5", "h.example.com", RecType.A, 1⟩] := by decide

/-- C8 (amended): the parser uses the `ip` query parameter when it is
present and non-empty, falls back to `myip` when `ip` is absent or
empty, and fails with InvalidInput (422) when the combined value is
null (i.e. `ip` absent-or-empty and `myip` absent). -/
theorem C8_amended_ip_fallback (req : Request) :
    resolvedIp req = (match getParam req "ip" with
      | none => getParam req "myip"
      | some s => if s = "" then getParam req "myip" else some s)
    ∧ (resolvedIp req = none → constructDNSRecords req = Except.error (JsError.http
        ⟨422, "The \"ip\" parameter is required and cannot be empty. Specify ip=auto to use the client IP."⟩)) := by
  constructor
  · unfold resolvedIp jsOr
    cases getParam req "ip" <;> rfl
  · intro h
    unfold constructDNSRecords
    rw [h]

/-- C8 witness: a request without `ip` and `myip` fails with 422. -/
theorem C8_witness :
    constructDNSRecords ⟨[], [("hostname", "h")]⟩ = Except.error (JsError.http
      ⟨422, "The \"ip\" parameter is required and cannot be empty. Specify ip=auto to use the client IP."⟩) :=
  (C8_amended_ip_fallback ⟨[], [("hostname", "h")]⟩).2 (by decide)

/-- C9: when the resolved IP value is the literal string `auto`, the
parser replaces it with the `CF-Connecting-IP` request header, and
fails with ServerError (500) when that header is absent. -/
theorem C9_auto_ip (req : Request) (cip hs : String)
    (hip : resolvedIp req = some "auto") :
    (getHeader req "CF-Connecting-IP" = none →
      constructDNSRecords req = Except.error (JsError.http ⟨500,
        "Request asked for ip=auto but client IP address cannot be determined."⟩))
    ∧ (getHeader req "CF-Connecting-IP" = some cip →
        getParam req "hostname" = some hs →
        constructDNSRecords req = Except.ok
          (((splitChar ',' hs.data).map String.mk).map (fun hostname =>
            ⟨cip, hostname,
              if cip.data.contains '.' then RecType.A else RecType.AAAA, 1⟩))) := by
  constructor
  · intro hh
    unfold constructDNSRecords
    rw [hip]
    simp [hh]
  · intro hh hhost
    unfold constructDNSRecords
    rw [hip]
    simp [hh, hhost]

/-- C9 witness: `ip=auto` without the header gives 500; with the
header the records carry the caller's address. -/
theorem C9_witness :
    constructDNSRecords c9ReqNoHeader = Except.error (JsError.http ⟨500,
      "Request asked for ip=auto but client IP address cannot be determined."⟩)
    ∧ constructDNSRecords c9ReqHeader = Except.ok
      (((splitChar ',' "home.example.com".data).map String.mk).map (fun hostname =>
        ⟨"203.0.113.5", hostname,
          if "203.0.113.5".data.contains '.' then RecType.A else RecType.AAAA, 1⟩)) := by
  refine ⟨(C9_auto_ip c9ReqNoHeader "" "" (by decide)).1 (by decide), ?_⟩
  exact (C9_auto_ip c9ReqHeader "203.0.113.5" "home.example.com" (by decide)).2
    (by decide) (by decide)

/-- C5: for every email and token whose payload `email ++ ":" ++ token`
is base64-encodable, contains no control character, and whose email
contains no colon, decoding the `Authorization` header built from the
base64 encoding of that payload recovers exactly the original email
and token, split at the first colon (the token may itself contain
further colons). -/
theorem C5_basic_auth_roundtrip (email token enc : String)
    (hcolon : ∀ c ∈ email.data, c ≠ ':')
    (hctl : ∀ c ∈ (email ++ ":" ++ token).data, isCtl c = false)
    (henc : btoa (email ++ ":" ++ token) = some enc) :
    constructClientOptions ⟨[("Authorization", "Basic " ++ enc)], []⟩
      = Except.ok ⟨email, token⟩ := by
  have hdec : atob enc = some (email ++ ":" ++ token) := atob_btoa _ _ henc
  have hnsp : ∀ c ∈ enc.data, c ≠ ' ' := btoa_no_space _ _ henc
  have hh : getHeader ⟨[("Authorization", "Basic " ++ enc)], []⟩ "Authorization"
      = some ("Basic " ++ enc) := rfl
  have hauth : authData ("Basic " ++ enc) = enc := by
    unfold authData
    rw [data_append]
    have hbasic : "Basic ".data = ['B', 'a', 's', 'i', 'c', ' '] := rfl
    rw [hbasic]
    have hsp : ['B', 'a', 's', 'i', 'c', ' '] ++ enc.data
        = ['B', 'a', 's', 'i', 'c'] ++ ' ' :: enc.data := rfl
    rw [hsp, splitChar_pre ' ' _ _ (by decide) hnsp]
    rfl
  have hdata : (email ++ ":" ++ token).data = email.data ++ ':' :: token.data := by
    rw [data_append, data_append]
    simp
  have hidx : jsIndexOf ':' (email ++ ":" ++ token).data = some email.data.length := by
    rw [hdata]
    exact jsIndexOf_first ':' _ _ hcolon
  have hany : (email ++ ":" ++ token).data.any isCtl = false := any_eq_false_of _ hctl
  simp only [constructClientOptions, hh, hauth, hdec, hidx, hany,
    Bool.false_eq_true, if_false]
  rw [hdata, take_length_append email.data (':' :: token.data),
    drop_length_cons_append email.data ':' token.data]

/-- C5 witness: `user` / `pa:ss` roundtrips through the concrete
base64 header payload. -/
theorem C5_witness :
    constructClientOptions ⟨[("Authorization", "Basic " ++ "dXNlcjpwYTpzcw==")], []⟩
      = Except.ok ⟨"user", "pa:ss"⟩ :=
  C5_basic_auth_roundtrip "user" "pa:ss" "dXNlcjpwYTpzcw==" (by decide) (by decide)
    (by decide)

/-- C6 counterexample: an `Authorization` header with an undecodable
base64 payload makes `atob` throw; the handler answers 500, not 401. -/
theorem C6_counterexample :
    (fetchHandler c4Provider c6Req).2.status = 500
    ∧ ¬ (fetchHandler c4Provider c6Req).2.status = 401 := by decide

/-- C6 (amended): a request with an absent `Authorization` header, or
one whose payload decodes to a string without a colon or with a
control character, is answered with 401; a payload that fails base64
decoding is answered with the generic 500, not 401. -/
theorem C6_amended_auth_failures (p : Provider) (req : Request) :
    (getHeader req "Authorization" = none →
      (fetchHandler p req).2 = ⟨401, "API token missing."⟩)
    ∧ (∀ auth decoded, getHeader req "Authorization" = some auth →
        atob (authData auth) = some decoded →
        (jsIndexOf ':' decoded.data = none ∨ decoded.data.any isCtl = true) →
        (fetchHandler p req).2 = ⟨401, "Invalid API key or token."⟩)
    ∧ (∀ auth, getHeader req "Authorization" = some auth →
        atob (authData auth) = none →
        (fetchHandler p req).2 = ⟨500, "Internal Server Error"⟩) := by
  refine ⟨?_, ?_, ?_⟩
  · intro h
    simp [fetchHandler, constructClientOptions, h, errToResponse]
  · intro auth decoded h1 h2 h3
    rcases h3 with h3 | h3
    · simp [fetchHandler, constructClientOptions, h1, h2, h3, errToResponse]
    · cases hidx : jsIndexOf ':' decoded.data with
      | none =>
        simp [fetchHandler, constructClientOptions, h1, h2, hidx, errToResponse]
      | some i =>
        simp [fetchHandler, constructClientOptions, h1, h2, hidx, h3, errToResponse]
  · intro auth h1 h2
    simp [fetchHandler, constructClientOptions, h1, h2, errToResponse]

/-- C6 witness: a request without an `Authorization` header is
answered 401. -/
theorem C6_witness :
    (fetchHandler c4Provider ⟨[], [("ip", "203.0.113.5"), ("hostname", "h")]⟩).2
      = ⟨401, "API token missing."⟩ :=
  (C6_amended_auth_failures c4Provider
    ⟨[], [("ip", "203.0.113.5"), ("hostname", "h")]⟩).1 rfl

end UnifiDdns
